import Mathlib

/-!
Verification of the RNSE anomaly-detection upload pipeline: CSV decode,
external-scorer invocation, anomaly extraction, result record and download
encode, and the ownership-checked record store. Definitions are a shallow
embedding of the backend code quoted in the repository's integration guide
(backend/main.py snippets); numeric samples, divergences and confidences are
modelled as rationals.
-/

namespace RNSE

/-- A CSV cell as seen by the numeric parser: `some q` is a cell that Python's
`float()` parses to the value `q`; `none` is a cell on which `float()` raises
`ValueError` (non-numeric text such as a header word or a serialized boolean). -/
abbrev Cell : Type := Option ℚ

/-- A CSV row: a list of cells. -/
abbrev Row : Type := List Cell

/-- Failures of the upload decode path: `valueError` is the unguarded
`float(row[1])` raising on a non-numeric cell; `insufficientData` is the
explicit `HTTPException(400, "Need at least 10 data points")`. -/
inductive DecodeError where
  | valueError
  | insufficientData
deriving DecidableEq

/-- The CSV value-extraction loop of the upload handler:
`for row in rows[1:]: if len(row) > 1: values.append(float(row[1]))`.
A row has a second cell exactly when `len(row) > 1`; rows with at most one
cell are skipped, and a non-numeric second cell makes the unguarded `float`
raise, aborting the whole decode. -/
def parseValues : List Row → Except DecodeError (List ℚ)
  | [] => Except.ok []
  | row :: rest =>
    match row with
    | _ :: some v :: _ => (parseValues rest).map (fun vs => v :: vs)
    | _ :: none :: _ => Except.error DecodeError.valueError
    | _ => parseValues rest

/-- Decode of an uploaded CSV: skip the header row (`rows[1:]`), run the
value-extraction loop, then reject with `insufficientData` when fewer than 10
values were parsed (`if len(values) < 10: raise HTTPException(400, ...)`). -/
def decode (rows : List Row) : Except DecodeError (List ℚ) :=
  match parseValues rows.tail with
  | Except.error e => Except.error e
  | Except.ok values =>
    if values.length < 10 then Except.error DecodeError.insufficientData
    else Except.ok values

/-- One per-tick log line from the external scorer's `result["lines"]`:
`malformed` is a line on which `json.loads(line_bytes.decode("utf-8"))`
raises (caught by the loop's bare `except: pass`); `parsed d` is a decoded
JSON object whose `"D"` field is `d` (absent when the key is missing, in
which case `line.get("D", 0.0)` yields `0.0`). -/
inductive ScoreLine where
  | malformed
  | parsed (d : Option ℚ)
deriving DecidableEq

/-- `confidence = min(1.0, max(0.0, divergence / 1.0))`. -/
def confidence (divergence : ℚ) : ℚ := min 1 (max 0 (divergence / 1))

/-- The anomaly-extraction loop from tick index `i` on: iterate
`enumerate(result["lines"])`, skip lines whose JSON decode raises
(`except: pass`), compute the clamped confidence, and append the pair
`(i, confidence)` exactly when `confidence > t`. The index `i` advances on
every line, including skipped ones, because it comes from `enumerate`. -/
def extractFrom (t : ℚ) : ℕ → List ScoreLine → List (ℕ × ℚ)
  | _, [] => []
  | i, ScoreLine.malformed :: rest => extractFrom t (i + 1) rest
  | i, ScoreLine.parsed d :: rest =>
    let c := confidence (d.getD 0)
    if t < c then (i, c) :: extractFrom t (i + 1) rest
    else extractFrom t (i + 1) rest

/-- The full anomaly-extraction loop, starting at tick index 0. -/
def extract (lines : List ScoreLine) (t : ℚ) : List (ℕ × ℚ) :=
  extractFrom t 0 lines

/-- The `anomaly_indices` list built by the extraction loop. -/
def anomalyIndices (lines : List ScoreLine) (t : ℚ) : List ℕ :=
  (extract lines t).map Prod.fst

/-- The `confidence_scores` list built in lockstep with `anomaly_indices`. -/
def confidenceScores (lines : List ScoreLine) (t : ℚ) : List ℚ :=
  (extract lines t).map Prod.snd

/-- `RNSEParams(tau=0.25, q=4, alpha=None)`: the scorer configuration object. -/
structure RNSEParams where
  tau : ℚ
  q : ℕ
  alpha : Option ℚ
deriving DecidableEq

/-- The fixed configuration the upload handler passes to the scorer. -/
def defaultParams : RNSEParams := { tau := 1/4, q := 4, alpha := none }

/-- The fixed seed `0x5EEDBEEFCAFE1234` used for every scorer invocation. -/
def seed64 : ℕ := 0x5EEDBEEFCAFE1234

/-- The anomaly threshold `0.3` of the deployed extraction loop. -/
def threshold : ℚ := 3/10

/-- The data persisted/returned for one completed upload: the decoded series
and the two parallel lists built by the extraction loop. -/
structure UploadResult where
  values : List ℚ
  anomaly_indices : List ℕ
  confidence_scores : List ℚ
deriving DecidableEq

/-- The post-decode part of the upload handler: invoke the external scorer as
`rnse_run(seed64=0x5EEDBEEFCAFE1234, T=len(values), params=params)` — note the
sample values themselves are never passed, only their count — then run the
extraction loop at threshold 0.3 over the returned lines. The scorer is opaque,
so it is a parameter `rnse : seed → T → params → lines`. -/
def analyze (rnse : ℕ → ℕ → RNSEParams → List ScoreLine) (values : List ℚ) :
    UploadResult :=
  let lines := rnse seed64 values.length defaultParams
  { values := values
    anomaly_indices := anomalyIndices lines threshold
    confidence_scores := confidenceScores lines threshold }

/-- The whole upload pipeline: decode the CSV rows, and on success score and
extract; a decode failure propagates and nothing is analyzed or stored. -/
def processUpload (rnse : ℕ → ℕ → RNSEParams → List ScoreLine)
    (rows : List Row) : Except DecodeError UploadResult :=
  (decode rows).map (analyze rnse)

/-- The spec-side normalization constant (default 1.0). -/
def normalizationConstant : ℚ := 1

/-- The spec-side clamp: `clamp(x, lo, hi)` forces `x` into `[lo, hi]`. -/
def clamp (x lo hi : ℚ) : ℚ := max lo (min hi x)

/-- The persisted outcome of one upload: owner identity, filename, the input
series verbatim, and the ordered anomaly flags (index, confidence). Owner and
filename are opaque identifiers, modelled as naturals. -/
structure AnalysisRecord where
  owner : ℕ
  filename : ℕ
  values : List ℚ
  flags : List (ℕ × ℚ)
deriving DecidableEq

/-- Whether index `i` carries an anomaly flag in `flags`. -/
def isFlagged (flags : List (ℕ × ℚ)) (i : ℕ) : Bool :=
  (flags.find? (fun p => p.1 == i)).isSome

/-- The confidence recorded for index `i`, `0` when `i` is not flagged. -/
def flagConfidence (flags : List (ℕ × ℚ)) (i : ℕ) : ℚ :=
  match flags.find? (fun p => p.1 == i) with
  | some p => p.2
  | none => 0

/-- A boolean serialized into a CSV cell: Python's `float()` rejects both
`"True"` and `"False"`, so the cell is non-numeric either way. -/
def boolCell (_b : Bool) : Cell := none

/-- The header row `index,value,is_anomaly,confidence`: four text cells that
`float()` rejects. -/
def headerRow : Row := [none, none, none, none]

/-- Modelled from the spec: the download CSV builder of backend/main.py is not
among this repository's sources (the docs give only the shape
`Build CSV: [Index, Value, Is_Anomaly, Confidence]`); per the spec it emits one
row per sample with columns index, value, is-anomaly (boolean) and confidence
(0 when not flagged), with `i` the running sample index. -/
def encodeRows (flags : List (ℕ × ℚ)) : ℕ → List ℚ → List Row
  | _, [] => []
  | i, v :: vs =>
    [some (i : ℚ), some v, boolCell (isFlagged flags i), some (flagConfidence flags i)]
      :: encodeRows flags (i + 1) vs

/-- Modelled from the spec: full download encode of a record — the fixed header
row `index,value,is_anomaly,confidence` followed by one row per sample. -/
def encode (r : AnalysisRecord) : List Row :=
  headerRow :: encodeRows r.flags 0 r.values

/-- One row of the results store: record id, owning user id, record. -/
structure RecordRow where
  rid : ℕ
  owner : ℕ
  record : AnalysisRecord
deriving DecidableEq

/-- Failure of a record lookup. -/
inductive GetError where
  | notFound
deriving DecidableEq

/-- Modelled from the spec: the backend's record-retrieval endpoint is not
among this repository's sources; per the spec, `Get(owner, id)` looks the id
up and reports `NotFound` both when no record has that id and when the record
belongs to a different owner, so non-owners cannot distinguish the two. -/
def getRecord (store : List RecordRow) (owner rid : ℕ) :
    Except GetError AnalysisRecord :=
  match store.find? (fun row => row.rid == rid) with
  | none => Except.error GetError.notFound
  | some row =>
    if row.owner = owner then Except.ok row.record
    else Except.error GetError.notFound

/-- Whether a scorer log line survives the loop's `json.loads` (is parseable). -/
def ScoreLine.isParsed : ScoreLine → Bool
  | ScoreLine.malformed => false
  | ScoreLine.parsed _ => true

/-- Whether a pipeline stage succeeded (`Except.ok`). -/
def exceptOk {ε α : Type} : Except ε α → Bool
  | Except.ok _ => true
  | Except.error _ => false

/-- A concrete scorer for counterexamples: whatever the seed, tick count and
params, it returns two log lines, one malformed and one with divergence 1, so
its parseable-line count never matches a 10-sample series. -/
def cexScorer : ℕ → ℕ → RNSEParams → List ScoreLine :=
  fun _ _ _ => [ScoreLine.malformed, ScoreLine.parsed (some 1)]

/-- A concrete upload: header row plus ten data rows with value 2. -/
def cexRows : List Row := headerRow :: List.replicate 10 [some 0, some 2]

/-- A concrete scorer that emits one parseable divergence-1 line per tick. -/
def constScorer : ℕ → ℕ → RNSEParams → List ScoreLine :=
  fun _ T _ => List.replicate T (ScoreLine.parsed (some 1))

lemma confidence_of_unit (d : ℚ) (h0 : 0 ≤ d) (h1 : d ≤ 1) : confidence d = d := by
  unfold confidence
  rw [div_one, max_eq_right h0, min_eq_right h1]

lemma extractFrom_fst_ge (t : ℚ) (lines : List ScoreLine) :
    ∀ (n : ℕ) (p : ℕ × ℚ), p ∈ extractFrom t n lines → n ≤ p.1 := by
  induction lines with
  | nil => intro n p hp; simp [extractFrom] at hp
  | cons hd tl ih =>
    intro n p hp
    cases hd with
    | malformed =>
      have h := ih (n + 1) p (by simpa [extractFrom] using hp)
      omega
    | parsed d =>
      by_cases hc : t < confidence (d.getD 0)
      · simp only [extractFrom, if_pos hc] at hp
        rcases List.mem_cons.mp hp with h | h
        · simp [h]
        · have := ih (n + 1) p h
          omega
      · simp only [extractFrom, if_neg hc] at hp
        have := ih (n + 1) p hp
        omega

lemma extractFrom_pairwise (t : ℚ) (lines : List ScoreLine) :
    ∀ n : ℕ, (extractFrom t n lines).Pairwise (fun p q => p.1 < q.1) := by
  induction lines with
  | nil => intro n; simp [extractFrom]
  | cons hd tl ih =>
    intro n
    cases hd with
    | malformed => simpa only [extractFrom] using ih (n + 1)
    | parsed d =>
      by_cases hc : t < confidence (d.getD 0)
      · simp only [extractFrom, if_pos hc]
        refine List.Pairwise.cons ?_ (ih (n + 1))
        intro q hq
        have h := extractFrom_fst_ge t tl (n + 1) q hq
        show n < q.1
        omega
      · simpa only [extractFrom, if_neg hc] using ih (n + 1)

lemma extractFrom_mem_spec (t : ℚ) (lines : List ScoreLine) :
    ∀ (n : ℕ) (p : ℕ × ℚ), p ∈ extractFrom t n lines →
      ∃ k d, lines.get? k = some (ScoreLine.parsed d) ∧
        p.1 = n + k ∧ p.2 = confidence (d.getD 0) ∧ t < p.2 := by
  induction lines with
  | nil => intro n p hp; simp [extractFrom] at hp
  | cons hd tl ih =>
    intro n p hp
    cases hd with
    | malformed =>
      obtain ⟨k, d, h1, h2, h3, h4⟩ := ih (n + 1) p (by simpa only [extractFrom] using hp)
      exact ⟨k + 1, d, by simpa using h1, by omega, h3, h4⟩
    | parsed d0 =>
      by_cases hc : t < confidence (d0.getD 0)
      · simp only [extractFrom, if_pos hc] at hp
        rcases List.mem_cons.mp hp with h | h
        · exact ⟨0, d0, rfl, by simp [h], by simp [h], by simp [h]; exact hc⟩
        · obtain ⟨k, d, h1, h2, h3, h4⟩ := ih (n + 1) p h
          exact ⟨k + 1, d, by simpa using h1, by omega, h3, h4⟩
      · simp only [extractFrom, if_neg hc] at hp
        obtain ⟨k, d, h1, h2, h3, h4⟩ := ih (n + 1) p hp
        exact ⟨k + 1, d, by simpa using h1, by omega, h3, h4⟩

lemma extractFrom_mem_of (t : ℚ) (lines : List ScoreLine) :
    ∀ (n k : ℕ) (d : Option ℚ), lines.get? k = some (ScoreLine.parsed d) →
      t < confidence (d.getD 0) →
      (n + k, confidence (d.getD 0)) ∈ extractFrom t n lines := by
  induction lines with
  | nil => intro n k d h _; simp at h
  | cons hd tl ih =>
    intro n k d hget hc
    cases k with
    | zero =>
      rw [List.get?_cons_zero] at hget
      have hhd : hd = ScoreLine.parsed d := by injection hget
      subst hhd
      show (n + 0, confidence (d.getD 0)) ∈ extractFrom t n (ScoreLine.parsed d :: tl)
      simp only [Nat.add_zero, extractFrom, if_pos hc]
      exact List.mem_cons_self _ _
    | succ k =>
      have hmem := ih (n + 1) k d (by simpa using hget) hc
      have heq : n + (k + 1) = (n + 1) + k := by omega
      cases hd with
      | malformed =>
        simp only [extractFrom]
        rw [heq]
        exact hmem
      | parsed d0 =>
        by_cases hc0 : t < confidence (d0.getD 0)
        · simp only [extractFrom, if_pos hc0]
          refine List.mem_cons_of_mem _ ?_
          rw [heq]
          exact hmem
        · simp only [extractFrom, if_neg hc0]
          rw [heq]
          exact hmem

lemma zip_map_fst_snd (l : List (ℕ × ℚ)) :
    (l.map Prod.fst).zip (l.map Prod.snd) = l := by
  induction l with
  | nil => rfl
  | cons p l ih => simp [ih]

lemma parseValues_encodeRows (flags : List (ℕ × ℚ)) :
    ∀ (i : ℕ) (vs : List ℚ), parseValues (encodeRows flags i vs) = Except.ok vs := by
  intro i vs
  induction vs generalizing i with
  | nil => rfl
  | cons v vs ih => simp [encodeRows, parseValues, ih, Except.map]

lemma cex_extract :
    extract [ScoreLine.malformed, ScoreLine.parsed (some 1)] threshold = [(1, 1)] := by
  have hc : confidence ((some (1 : ℚ)).getD 0) = 1 := by
    rw [Option.getD_some]
    exact confidence_of_unit 1 zero_le_one le_rfl
  have ht : threshold < confidence ((some (1 : ℚ)).getD 0) := by
    rw [hc]; norm_num [threshold]
  show extractFrom threshold 0 [ScoreLine.malformed, ScoreLine.parsed (some 1)] = [(1, 1)]
  simp only [extractFrom]
  rw [if_pos ht, hc]

/-- Claim C4: the confidence assigned by the extraction loop is the divergence
divided by the normalization constant (1.0), clamped into the closed interval
from 0 to 1; in particular every confidence lies between 0 and 1, whatever
divergence the scorer emits. -/
theorem confidence_clamp_bounds (d : ℚ) :
    confidence d = clamp (d / normalizationConstant) 0 1 ∧
    0 ≤ confidence d ∧ confidence d ≤ 1 := by
  refine ⟨?_, ?_, ?_⟩
  · unfold confidence clamp normalizationConstant
    rcases le_total (d / 1) 0 with h | h
    · rw [max_eq_left h, min_eq_right zero_le_one, min_eq_right (h.trans zero_le_one),
        max_eq_left h]
    · rcases le_total (d / 1) 1 with h1 | h1
      · rw [max_eq_right h, min_eq_right h1, max_eq_right h]
      · rw [max_eq_right (zero_le_one.trans h1), min_eq_left h1,
          max_eq_right zero_le_one]
  · unfold confidence
    exact le_min zero_le_one (le_max_left 0 _)
  · unfold confidence
    exact min_le_left 1 _

/-- Claim C9: extraction is a pure deterministic function — two runs on equal
score-line sequences with equal thresholds produce identical ordered flag
lists, with no dependence on any external state. -/
theorem extract_deterministic (s₁ s₂ : List ScoreLine) (t₁ t₂ : ℚ)
    (hs : s₁ = s₂) (ht : t₁ = t₂) : extract s₁ t₁ = extract s₂ t₂ := by
  rw [hs, ht]

/-- Witness for C9 at a concrete score-line list and the deployed threshold. -/
theorem extract_deterministic_witness :
    extract [ScoreLine.parsed (some 1), ScoreLine.malformed] threshold =
      extract [ScoreLine.parsed (some 1), ScoreLine.malformed] threshold :=
  extract_deterministic _ _ _ _ rfl rfl

/-- Claim C2: for every parseable score line and every threshold, its index is
flagged as an anomaly exactly when its confidence is strictly greater than the
threshold; confidence equal to the threshold is never flagged. -/
theorem threshold_strict (lines : List ScoreLine) (t : ℚ) (i : ℕ) (d : Option ℚ)
    (h : lines.get? i = some (ScoreLine.parsed d)) :
    i ∈ anomalyIndices lines t ↔ t < confidence (d.getD 0) := by
  constructor
  · intro hmem
    obtain ⟨p, hp, hfst⟩ := List.mem_map.mp hmem
    obtain ⟨k, d1, h1, h2, h3, h4⟩ := extractFrom_mem_spec t lines 0 p hp
    have hk : k = i := by omega
    subst hk
    rw [h] at h1
    simp only [Option.some.injEq, ScoreLine.parsed.injEq] at h1
    rw [← h1] at h3
    rw [h3] at h4
    exact h4
  · intro hc
    have hm := extractFrom_mem_of t lines 0 i d h hc
    show i ∈ (extract lines t).map Prod.fst
    exact List.mem_map.mpr ⟨(0 + i, confidence (d.getD 0)), hm, by simp⟩

/-- Witness for C2: with the deployed threshold 0.3, a line of confidence
0.30001 (index 1 here) is flagged, applying the boundary theorem at a
concrete score-line list. -/
theorem threshold_strict_witness :
    1 ∈ anomalyIndices
      [ScoreLine.parsed (some (3/10)), ScoreLine.parsed (some (30001/100000))]
      threshold := by
  refine (threshold_strict
    [ScoreLine.parsed (some (3/10)), ScoreLine.parsed (some (30001/100000))]
    threshold 1 (some (30001/100000)) rfl).mpr ?_
  have h : confidence ((some ((30001 : ℚ)/100000)).getD 0) = 30001/100000 := by
    rw [Option.getD_some]
    exact confidence_of_unit _ (by norm_num) (by norm_num)
  rw [h]
  norm_num [threshold]

/-- Claim C8: the extraction loop's flag list is strictly ascending by index
(hence each index appears at most once), the parallel confidence list has the
same length, and zipping the two lists recovers exactly the flagged
(index, confidence) pairs in order. -/
theorem extract_sorted_parallel (lines : List ScoreLine) (t : ℚ) :
    (anomalyIndices lines t).Pairwise (fun i j => i < j) ∧
    (anomalyIndices lines t).length = (confidenceScores lines t).length ∧
    (anomalyIndices lines t).zip (confidenceScores lines t) = extract lines t := by
  refine ⟨?_, ?_, ?_⟩
  · have h := extractFrom_pairwise t lines 0
    exact List.pairwise_map.mpr h
  · simp [anomalyIndices, confidenceScores]
  · show ((extract lines t).map Prod.fst).zip ((extract lines t).map Prod.snd) =
      extract lines t
    exact zip_map_fst_snd _

/-- Claim C3: the flags are independent of the data content — the scorer is
invoked with only the fixed seed, the sample count and the params, so two
decoded series of equal length produce identical anomaly indices and identical
confidence scores under any scorer. -/
theorem flags_data_independent (rnse : ℕ → ℕ → RNSEParams → List ScoreLine)
    (v₁ v₂ : List ℚ) (h : v₁.length = v₂.length) :
    (analyze rnse v₁).anomaly_indices = (analyze rnse v₂).anomaly_indices ∧
    (analyze rnse v₁).confidence_scores = (analyze rnse v₂).confidence_scores := by
  simp [analyze, h]

/-- Witness for C3: two different three-sample series under a concrete scorer. -/
theorem flags_data_independent_witness :
    (analyze constScorer [1, 2, 3]).anomaly_indices =
      (analyze constScorer [7, 8, 9]).anomaly_indices ∧
    (analyze constScorer [1, 2, 3]).confidence_scores =
      (analyze constScorer [7, 8, 9]).confidence_scores :=
  flags_data_independent constScorer [1, 2, 3] [7, 8, 9] rfl

/-- Counterexample to C1 as stated: a scorer returning two lines — only one of
them parseable — for a ten-sample series. The parseable-line count (1) differs
from the series length (10), yet the pipeline completes with a normal result
instead of failing with any ScorerContractViolation. -/
theorem scorer_count_unverified_cex :
    ((cexScorer seed64 10 defaultParams).filter ScoreLine.isParsed).length = 1 ∧
    decode cexRows = Except.ok (List.replicate 10 2) ∧
    (List.replicate 10 (2 : ℚ)).length = 10 ∧
    processUpload cexScorer cexRows = Except.ok
      { values := List.replicate 10 2
        anomaly_indices := [1]
        confidence_scores := [1] } := by
  refine ⟨rfl, rfl, rfl, ?_⟩
  have hd : decode cexRows = Except.ok (List.replicate 10 (2 : ℚ)) := rfl
  have ha : analyze cexScorer (List.replicate 10 (2 : ℚ)) =
      { values := List.replicate 10 2
        anomaly_indices := [1]
        confidence_scores := [1] } := by
    simp [analyze, anomalyIndices, confidenceScores, cexScorer, cex_extract]
  rw [processUpload, hd]
  show Except.ok (analyze cexScorer (List.replicate 10 (2 : ℚ))) = _
  rw [ha]

/-- Claim C1 amended: the adapter never verifies the scorer's line count —
unparseable lines are skipped silently (the loop's bare except), and the
pipeline's success depends only on the decode step, whatever the scorer
returns; no ScorerContractViolation failure exists in the code. -/
theorem scorer_count_unverified (rnse : ℕ → ℕ → RNSEParams → List ScoreLine)
    (rows : List Row) (t : ℚ) (rest : List ScoreLine) :
    exceptOk (processUpload rnse rows) = exceptOk (decode rows) ∧
    extract (ScoreLine.malformed :: rest) t = extractFrom t 1 rest := by
  refine ⟨?_, rfl⟩
  cases h : decode rows with
  | ok v => simp [processUpload, h, Except.map, exceptOk]
  | error e => simp [processUpload, h, Except.map, exceptOk]

/-- Counterexample to C5 as stated: eleven numeric rows decode fine, but
inserting one row whose value cell is non-numeric makes the whole decode abort
with the unguarded float error, instead of skipping that row and succeeding. -/
theorem csv_abort_cex :
    decode (headerRow :: List.replicate 11 [some 0, some 1]) =
      Except.ok (List.replicate 11 1) ∧
    decode (headerRow :: [some 0, none] :: List.replicate 11 [some 0, some 1]) =
      Except.error DecodeError.valueError :=
  ⟨rfl, rfl⟩

/-- Claim C5 amended: the decode loop skips only rows with fewer than two
cells; a row whose second cell fails numeric parsing aborts the whole decode
with the unguarded float error rather than being skipped, and the
insufficient-data floor applies only when every row parses. -/
theorem csv_skip_or_abort (row : Row) (rest : List Row) (c : Cell)
    (cs : List Cell) (hlen : row.length ≤ 1) :
    parseValues (row :: rest) = parseValues rest ∧
    parseValues ((c :: none :: cs) :: rest) = Except.error DecodeError.valueError := by
  refine ⟨?_, rfl⟩
  match row with
  | [] => rfl
  | [c0] => rfl
  | c0 :: c1 :: cs0 => simp at hlen

/-- Witness for C5 amended: a one-cell row is skipped and a concrete row with
a non-numeric second cell aborts the decode. -/
theorem csv_skip_or_abort_witness :
    parseValues [[some 5]] = parseValues [] ∧
    parseValues [[some 0, none]] = Except.error DecodeError.valueError :=
  csv_skip_or_abort [some 5] [] (some 0) [] (by simp)

/-- Claim C6: when the value-extraction loop yields fewer than 10 samples the
decode fails with the insufficient-data error and the pipeline creates no
result; with 10 or more samples the decode succeeds. -/
theorem decode_min_floor (rows : List Row) (values : List ℚ)
    (rnse : ℕ → ℕ → RNSEParams → List ScoreLine)
    (h : parseValues rows.tail = Except.ok values) :
    (values.length < 10 →
      decode rows = Except.error DecodeError.insufficientData ∧
      processUpload rnse rows = Except.error DecodeError.insufficientData) ∧
    (10 ≤ values.length → decode rows = Except.ok values) := by
  constructor
  · intro hlt
    have hd : decode rows = Except.error DecodeError.insufficientData := by
      simp [decode, h, hlt]
    exact ⟨hd, by simp [processUpload, hd, Except.map]⟩
  · intro hge
    simp [decode, h, Nat.not_lt.mpr hge]

/-- Witness for C6: a nine-sample upload is rejected with insufficient data
(and produces no result), while a ten-sample upload decodes successfully. -/
theorem decode_min_floor_witness :
    decode (headerRow :: List.replicate 9 [some 0, some 1]) =
      Except.error DecodeError.insufficientData ∧
    processUpload constScorer (headerRow :: List.replicate 9 [some 0, some 1]) =
      Except.error DecodeError.insufficientData ∧
    decode (headerRow :: List.replicate 10 [some 0, some 1]) =
      Except.ok (List.replicate 10 1) := by
  have h9 := (decode_min_floor (headerRow :: List.replicate 9 [some 0, some 1])
    (List.replicate 9 1) constScorer rfl).1 (by simp)
  have h10 := (decode_min_floor (headerRow :: List.replicate 10 [some 0, some 1])
    (List.replicate 10 1) constScorer rfl).2 (by simp)
  exact ⟨h9.1, h9.2, h10⟩

/-- Claim C7: for a valid record (at least the ten-sample floor) with no
anomaly flags, decoding the CSV produced by the download encoder recovers
exactly the stored numeric series, in order and magnitude. -/
theorem encode_decode_roundtrip (r : AnalysisRecord) (_hflags : r.flags = [])
    (hlen : 10 ≤ r.values.length) :
    decode (encode r) = Except.ok r.values := by
  have hp : parseValues (encode r).tail = Except.ok r.values := by
    show parseValues (encodeRows r.flags 0 r.values) = Except.ok r.values
    exact parseValues_encodeRows r.flags 0 r.values
  simp [decode, hp, Nat.not_lt.mpr hlen]

/-- Witness for C7: a concrete flagless ten-sample record survives the
encode-decode round trip. -/
theorem encode_decode_roundtrip_witness :
    decode (encode
      { owner := 0, filename := 0, values := List.replicate 10 5, flags := [] }) =
      Except.ok (List.replicate 10 5) :=
  encode_decode_roundtrip
    { owner := 0, filename := 0, values := List.replicate 10 5, flags := [] }
    rfl (by simp)

/-- Claim C10: a record owned by a different user is reported as not-found,
the very same failure returned for an id no record has, so a non-owner cannot
distinguish someone else's record from a nonexistent one. -/
theorem ownership_isolation (store : List RecordRow) (ownerA idB idN : ℕ)
    (row : RecordRow)
    (hfind : store.find? (fun r => r.rid == idB) = some row)
    (hB : row.owner ≠ ownerA)
    (hnone : store.find? (fun r => r.rid == idN) = none) :
    getRecord store ownerA idB = Except.error GetError.notFound ∧
    getRecord store ownerA idN = Except.error GetError.notFound := by
  constructor
  · simp [getRecord, hfind, hB]
  · simp [getRecord, hnone]

/-- Witness for C10: a one-record store owned by user 2; user 3 gets the same
not-found failure for that record (id 1) as for a nonexistent id (99). -/
theorem ownership_isolation_witness :
    getRecord [⟨1, 2, ⟨2, 0, [], []⟩⟩] 3 1 = Except.error GetError.notFound ∧
    getRecord [⟨1, 2, ⟨2, 0, [], []⟩⟩] 3 99 = Except.error GetError.notFound :=
  ownership_isolation [⟨1, 2, ⟨2, 0, [], []⟩⟩] 3 1 99 ⟨1, 2, ⟨2, 0, [], []⟩⟩
    rfl (by simp) rfl

end RNSE
